import Mathlib

/-!
# Verification of the CHIP manual setup payload encoder and TLV traversal utilities

This development shallowly embeds `src/setup_payload/ManualSetupPayloadGenerator.cpp`
(the manual commissioning-code encoder) and the TLV traversal utilities declared in
`CHIPTLVUtilities.hpp` (`Iterate`, `Count`, `Find`), and proves the specified
properties about them.

Machine integers are modelled as `Nat` with explicit reduction modulo `2 ^ 32`
where the C++ code computes in `uint32_t`.
-/

set_option maxRecDepth 4096

namespace ChipSpec

/-- Error type standing for the C++ `CHIP_ERROR` codes.  Decode errors (malformed
TLV input detected while advancing the cursor) are kept in their own constructor
so that they are distinguishable, as the spec requires, from visitor-abort codes
(`code n`) and from the encoder's invalid-argument failure. -/
inductive DecodeError where
  | underrun
  | invalidElement
deriving DecidableEq, Repr

inductive CHIP_ERROR where
  | no_error
  | invalid_argument
  | decode (e : DecodeError)
  | code (n : Nat)
deriving DecidableEq, Repr

/-- Modelled from the spec: the bit-width / digit-count constants
(`kSetupPINCodeFieldLengthInBits` et al.) are referenced by
`ManualSetupPayloadGenerator.cpp` but defined in a header that is not part of the
excerpt; §8 of the spec fixes `W_pin = 27`, `W_disc = 12`, `L_short = 11`,
`L_vendor = 5`, `L_product = 5`. -/
def kSetupPINCodeFieldLengthInBits : Nat := 27

/-- Modelled from the spec: discriminator bit width `W_disc = 12`. -/
def kPayloadDiscriminatorFieldLengthInBits : Nat := 12

/-- Modelled from the spec: `L_short = 11`. -/
def kManualSetupShortCodeCharLength : Nat := 11

/-- Modelled from the spec: `L_vendor = 5`. -/
def kManualSetupVendorIdCharLength : Nat := 5

/-- Modelled from the spec: `L_product = 5`. -/
def kManualSetupProductIdCharLength : Nat := 5

/-- The commissioning payload record (`SetupPayload`), with the fields the manual
code encoder reads.  In the C++ source `setUpPINCode` is a `uint32_t` and
`discriminator`, `vendorID`, `productID` are 16-bit fields; here they are `Nat`s,
with the C++ width bounds supplied as hypotheses where they matter. -/
structure SetupPayload where
  requiresCustomFlow : Bool
  setUpPINCode : Nat
  discriminator : Nat
  vendorID : Nat
  productID : Nat

/-- Modelled from the spec: `SetupPayload::isValidManualCode` is declared in a
header outside the excerpt; §8 of the spec says encoding fails exactly on
`discriminator >= 2^12` or `setUpPINCode >= 2^27`. -/
def SetupPayload.isValidManualCode (p : SetupPayload) : Bool :=
  decide (p.setUpPINCode < 2 ^ kSetupPINCodeFieldLengthInBits) &&
    decide (p.discriminator < 2 ^ kPayloadDiscriminatorFieldLengthInBits)

/-- Embedding of `shortPayloadRepresentation` from `ManualSetupPayloadGenerator.cpp`:
```
int offset      = 1;
uint32_t result = payload.requiresCustomFlow ? 1 : 0;
result |= payload.setUpPINCode << offset;
offset += kSetupPINCodeFieldLengthInBits;
result |= payload.discriminator << offset;
return result;
```
`result` is a `uint32_t`, so each shifted operand is reduced modulo `2 ^ 32`
before being OR-ed in. -/
def shortPayloadRepresentation (payload : SetupPayload) : Nat :=
  let offset := 1
  let result : Nat := if payload.requiresCustomFlow then 1 else 0
  let result := result ||| (payload.setUpPINCode <<< offset) % 2 ^ 32
  let offset := offset + kSetupPINCodeFieldLengthInBits
  result ||| (payload.discriminator <<< offset) % 2 ^ 32

/-- Decimal digit list (most significant first) of a natural number, with fuel;
`fuel > n` suffices, matching the recursion `n → n / 10`. -/
def decDigitsAux : Nat → Nat → List Char
  | 0, _ => []
  | fuel + 1, n =>
    if n < 10 then [Nat.digitChar n]
    else decDigitsAux fuel (n / 10) ++ [Nat.digitChar (n % 10)]

/-- The decimal rendering of a natural number, as produced by `printf`-style
`%u` formatting. -/
def natToDecimalString (n : Nat) : String :=
  String.mk (decDigitsAux (n + 1) n)

/-- Embedding of `decimalStringWithPadding` from `ManualSetupPayloadGenerator.cpp`:
`sprintf(buf, "%0*u", minLength, number)` — the decimal rendering of the
`uint32_t` argument, left-padded with zeros to at least `minLength` characters
(a value with more digits than `minLength` is printed in full). -/
def decimalStringWithPadding (number : Nat) (minLength : Nat) : String :=
  let number := number % 2 ^ 32
  let s := natToDecimalString number
  String.mk (List.replicate (minLength - s.length) '0') ++ s

/-- Embedding of `ManualSetupPayloadGenerator::payloadDecimalStringRepresentation`.  The C++
function takes the output string by reference and only assigns it on success; it
is modelled as returning the pair of the status and the final value of the
output parameter. -/
def payloadDecimalStringRepresentation (mSetupPayload : SetupPayload)
    (outDecimalString : String) : CHIP_ERROR × String :=
  if !mSetupPayload.isValidManualCode then
    (.invalid_argument, outDecimalString)
  else
    let shortDecimal := shortPayloadRepresentation mSetupPayload
    let decimalString := decimalStringWithPadding shortDecimal kManualSetupShortCodeCharLength
    let decimalString :=
      if mSetupPayload.requiresCustomFlow then
        decimalString ++ decimalStringWithPadding mSetupPayload.vendorID kManualSetupVendorIdCharLength
          ++ decimalStringWithPadding mSetupPayload.productID kManualSetupProductIdCharLength
      else
        decimalString
    (.no_error, decimalString)

/-- The short representation as the spec's §4.2 step 2 words describe it: a
single bit-packed unsigned integer, low bits first, with no width truncation —
bit 0 the custom-flow flag, bits `1..W_pin` the PIN, the next `W_disc` bits the
discriminator.  Used to compare the source's `uint32_t` computation against the
spec's packing. -/
def specShortPackedValue (p : SetupPayload) : Nat :=
  (if p.requiresCustomFlow then 1 else 0) ||| (p.setUpPINCode <<< 1) |||
    (p.discriminator <<< (1 + kSetupPINCodeFieldLengthInBits))

example : shortPayloadRepresentation ⟨false, 20202021, 3840, 0, 0⟩ = 40404042 := by decide

example : decimalStringWithPadding 40404042 11 = "00040404042" := by decide

/-!
## TLV traversal model

`CHIPTLVUtilities.hpp` only declares `chip::TLV::Utilities::Iterate`, `Count`
and `Find`; their implementation is not part of the excerpt.  The model below
is therefore built from the spec (§4.1, §4.2 Traversal Engine, §7, §8).

A TLV document is a stream of elements; an element is a leaf or a container
holding a nested stream.  A malformed encoding (e.g. a container whose declared
length exceeds the remaining buffer) is a point in the stream at which advancing
the cursor fails with a decode error; `TLVStream.bad` marks such a point. -/

mutual
/-- Modelled from the spec: a TLV element as exposed by the cursor — a tag plus
either an opaque leaf value or a nested sequence of elements. -/
inductive TLVNode where
  | leaf (tag : Nat)
  | container (tag : Nat) (contents : TLVStream)

/-- Modelled from the spec: a sequence of TLV elements as produced by advancing
the cursor; `bad e` is a position where decoding fails with error `e`. -/
inductive TLVStream where
  | nil
  | bad (e : DecodeError)
  | cons (head : TLVNode) (rest : TLVStream)
end

/-- The tag of an element. -/
def TLVNode.tag : TLVNode → Nat
  | .leaf t => t
  | .container t _ => t

mutual
/-- First decode error embedded anywhere in a stream, in document order. -/
def firstBadS : TLVStream → Option DecodeError
  | .nil => none
  | .bad e => some e
  | .cons n rest =>
    match firstBadN n with
    | some e => some e
    | none => firstBadS rest

/-- First decode error embedded in an element's subtree. -/
def firstBadN : TLVNode → Option DecodeError
  | .leaf _ => none
  | .container _ cs => firstBadS cs
end

/-- Whether the stream contains a malformed encoding anywhere. -/
def containsBad (s : TLVStream) : Bool :=
  (firstBadS s).isSome

/-- A visitor (`IterateHandler`): receives its context/state, the current
element and the current depth, and returns a status together with the updated
context.  The C++ handler mutates a `void *` context; the state-passing pair
models that mutation. -/
def Handler (σ : Type) : Type :=
  σ → TLVNode → Nat → CHIP_ERROR × σ

mutual
/-- Modelled from the spec (§4.1): the traversal engine.  Walks the stream in
document order at depth `d`, invoking the handler once per visited element.  A
non-continue handler status aborts immediately and is returned verbatim.  If
`r` (recurse) is true, a container's contents are visited at depth `d + 1`
after the container itself; if false, the container is skipped, but a malformed
encoding inside it still surfaces as a decode error while advancing past it.
Reaching the natural end of the stream is success. -/
def IterateS {σ : Type} (r : Bool) (h : Handler σ) (d : Nat) (st : σ) :
    TLVStream → CHIP_ERROR × σ
  | .nil => (.no_error, st)
  | .bad e => (.decode e, st)
  | .cons n rest =>
    let p := h st n d
    if p.1 = .no_error then
      let q := IterateN r h d p.2 n
      if q.1 = .no_error then IterateS r h d q.2 rest else q
    else p

/-- Advancing past an element after it has been visited: entering a container's
contents when recursing, otherwise skipping them (which still detects an
embedded decode error). -/
def IterateN {σ : Type} (r : Bool) (h : Handler σ) (d : Nat) (st : σ) :
    TLVNode → CHIP_ERROR × σ
  | .leaf _ => (.no_error, st)
  | .container _ cs =>
    if r then IterateS r h (d + 1) st cs
    else
      match firstBadS cs with
      | some e => (.decode e, st)
      | none => (.no_error, st)
end

/-- Modelled from the spec: `chip::TLV::Utilities::Iterate(reader, handler,
context, recurse)`, starting at depth 0. -/
def Iterate {σ : Type} (s : TLVStream) (h : Handler σ) (st : σ) (r : Bool) :
    CHIP_ERROR × σ :=
  IterateS r h 0 st s

/-- Modelled from the spec (§4.2): Count's visitor always continues and
increments a counter. -/
def countHandler : Handler Nat :=
  fun k _ _ => (.no_error, k + 1)

/-- Modelled from the spec (§4.2): `Count` is Iterate with `countHandler`. -/
def Count (s : TLVStream) (r : Bool) : CHIP_ERROR × Nat :=
  Iterate s countHandler 0 r

/-- The internal status by which Find's visitor signals "stop, found" to
Iterate. -/
def kFindSentinel : CHIP_ERROR := .code 0

/-- Modelled from the spec (§4.2): Find's visitor — a fixed tag-equality test
that captures the matched element and signals stop. -/
def findHandler (t : Nat) : Handler (Option TLVNode) :=
  fun acc n _ => if n.tag = t then (kFindSentinel, some n) else (.no_error, acc)

/-- A visitor that does nothing and always continues. -/
def noopHandler : Handler Unit :=
  fun u _ _ => (.no_error, u)

/-- Modelled from the spec (§4.2): `Find(reader, tag, result, recurse)` — a
specialization of Iterate whose visitor tests tag equality, captures the
matched element and signals stop; the sentinel is translated back into success.
Both "found" (`some`) and "not found" (`none`) are `no_error` outcomes. -/
def Find (s : TLVStream) (t : Nat) (r : Bool) : CHIP_ERROR × Option TLVNode :=
  let p := Iterate s (findHandler t) none r
  if p.1 = kFindSentinel then (.no_error, p.2) else p

mutual
/-- The visit trace of a traversal: the list of (element, depth) pairs a
never-aborting visitor is invoked on, in order, together with the decode error
(if any) that ends the traversal. -/
def visitsS (r : Bool) (d : Nat) : TLVStream → List (TLVNode × Nat) × Option DecodeError
  | .nil => ([], none)
  | .bad e => ([], some e)
  | .cons n rest =>
    let vn := visitsN r d n
    match vn.2 with
    | some e => ((n, d) :: vn.1, some e)
    | none =>
      let vs := visitsS r d rest
      ((n, d) :: (vn.1 ++ vs.1), vs.2)

/-- The visits contributed by an element's innards after the element itself has
been visited. -/
def visitsN (r : Bool) (d : Nat) : TLVNode → List (TLVNode × Nat) × Option DecodeError
  | .leaf _ => ([], none)
  | .container _ cs => if r then visitsS r (d + 1) cs else ([], firstBadS cs)
end

/-- Replay of a handler along a visit trace: invoke the handler on each listed
element in order, aborting on the first non-continue status; at the end of the
list, surface the trace's decode error, or succeed. -/
def runHandler {σ : Type} (h : Handler σ) :
    σ → List (TLVNode × Nat) → Option CHIP_ERROR → CHIP_ERROR × σ
  | st, [], none => (.no_error, st)
  | st, [], some e => (e, st)
  | st, nd :: rest, me =>
    let p := h st nd.1 nd.2
    if p.1 = .no_error then runHandler h p.2 rest me else p

/-- Instrumentation of a handler with an invocation counter: behaves exactly
like `h` and additionally counts how often it is invoked. -/
def instr {σ : Type} (h : Handler σ) : Handler (σ × Nat) :=
  fun p n d =>
    let q := h p.1 n d
    (q.1, (q.2, p.2 + 1))

/-- The index (1-based), status and state of the first non-continue status a
handler returns when replayed along a visit trace, if any. -/
def firstFailure {σ : Type} (h : Handler σ) :
    σ → Nat → List (TLVNode × Nat) → Option (Nat × CHIP_ERROR × σ)
  | _, _, [] => none
  | st, k, nd :: rest =>
    let p := h st nd.1 nd.2
    if p.1 = .no_error then firstFailure h p.2 (k + 1) rest else some (k + 1, p.1, p.2)

example :
    Count (.cons (.leaf 1) (.cons (.container 2 (.cons (.leaf 3) .nil)) .nil)) true =
      (.no_error, 3) := by decide

example :
    Count (.cons (.leaf 1) (.cons (.container 2 (.cons (.leaf 3) .nil)) .nil)) false =
      (.no_error, 2) := by decide

example :
    Find (.cons (.leaf 1) (.cons (.container 2 (.cons (.leaf 3) .nil)) .nil)) 3 true =
      (.no_error, some (.leaf 3)) := rfl

example :
    Find (.cons (.leaf 1) (.cons (.container 2 (.cons (.leaf 3) .nil)) .nil)) 3 false =
      (.no_error, none) := rfl

example :
    Count (.cons (.container 2 (.cons (.leaf 3) (.bad .underrun))) .nil) false =
      (.decode .underrun, 1) := by decide

/-! ### The simulation lemma: `Iterate` replays its handler along the visit trace -/

theorem runHandler_some_ne {σ : Type} (h : Handler σ) (e : CHIP_ERROR)
    (he : e ≠ .no_error) :
    ∀ (l : List (TLVNode × Nat)) (st : σ), (runHandler h st l (some e)).1 ≠ .no_error
  | [], st => by simp only [runHandler]; exact he
  | nd :: rest, st => by
    by_cases hp : (h st nd.1 nd.2).1 = .no_error
    · simpa [runHandler, hp] using runHandler_some_ne h e he rest _
    · simp only [runHandler, if_neg hp]
      exact hp

theorem runHandler_append {σ : Type} (h : Handler σ) :
    ∀ (l1 l2 : List (TLVNode × Nat)) (st : σ) (me : Option CHIP_ERROR),
      runHandler h st (l1 ++ l2) me =
        (if (runHandler h st l1 none).1 = .no_error then
          runHandler h (runHandler h st l1 none).2 l2 me
        else runHandler h st l1 none)
  | [], l2, st, me => by simp [runHandler]
  | nd :: rest, l2, st, me => by
    by_cases hp : (h st nd.1 nd.2).1 = .no_error
    · simpa [runHandler, hp] using runHandler_append h rest l2 _ me
    · simp [runHandler, hp]

mutual
theorem masterS {σ : Type} (r : Bool) (h : Handler σ) :
    ∀ (d : Nat) (st : σ) (s : TLVStream),
      IterateS r h d st s =
        runHandler h st (visitsS r d s).1 ((visitsS r d s).2.map CHIP_ERROR.decode)
  | d, st, .nil => by simp [IterateS, visitsS, runHandler]
  | d, st, .bad e => by simp [IterateS, visitsS, runHandler]
  | d, st, .cons n rest => by
    have hq := masterN r h d (h st n d).2 n
    rcases hvn : (visitsN r d n).2 with _ | e
    · rw [hvn] at hq
      simp only [Option.map_none'] at hq
      have hs := masterS r h d (IterateN r h d (h st n d).2 n).2 rest
      simp only [IterateS, visitsS, hvn, runHandler, Option.map_none']
      by_cases hp : (h st n d).1 = .no_error
      · rw [if_pos hp, if_pos hp, runHandler_append, ← hq]
        by_cases hq1 : (IterateN r h d (h st n d).2 n).1 = .no_error
        · rw [if_pos hq1, if_pos hq1, hs]
        · rw [if_neg hq1, if_neg hq1]
      · rw [if_neg hp, if_neg hp]
    · rw [hvn] at hq
      simp only [Option.map_some'] at hq
      have hne : (IterateN r h d (h st n d).2 n).1 ≠ .no_error := by
        rw [hq]
        exact runHandler_some_ne h _ (by simp) _ _
      simp only [IterateS, visitsS, hvn, runHandler, Option.map_some']
      by_cases hp : (h st n d).1 = .no_error
      · rw [if_pos hp, if_pos hp, if_neg hne, hq]
      · rw [if_neg hp, if_neg hp]

theorem masterN {σ : Type} (r : Bool) (h : Handler σ) :
    ∀ (d : Nat) (st : σ) (n : TLVNode),
      IterateN r h d st n =
        runHandler h st (visitsN r d n).1 ((visitsN r d n).2.map CHIP_ERROR.decode)
  | d, st, .leaf t => by simp [IterateN, visitsN, runHandler]
  | d, st, .container t cs => by
    by_cases hr : r
    · simpa [IterateN, visitsN, hr] using masterS r h (d + 1) st cs
    · rcases hb : firstBadS cs with _ | e <;> simp [IterateN, visitsN, hr, hb, runHandler]
end

/-! ### Decimal rendering lemmas -/

theorem digitChar_isDigit {m : Nat} (h : m < 10) : (Nat.digitChar m).isDigit = true := by
  interval_cases m <;> decide

theorem decDigitsAux_digits :
    ∀ (fuel n : Nat), ∀ c ∈ decDigitsAux fuel n, c.isDigit = true
  | 0, n => by simp [decDigitsAux]
  | fuel + 1, n => by
    intro c hc
    by_cases h10 : n < 10
    · simp only [decDigitsAux, if_pos h10, List.mem_singleton] at hc
      subst hc
      exact digitChar_isDigit h10
    · simp only [decDigitsAux, if_neg h10, List.mem_append, List.mem_singleton] at hc
      rcases hc with hc | hc
      · exact decDigitsAux_digits fuel (n / 10) c hc
      · subst hc
        exact digitChar_isDigit (Nat.mod_lt _ (by norm_num))

theorem decDigitsAux_length :
    ∀ (fuel n k : Nat), n < fuel → 1 ≤ k → n < 10 ^ k →
      (decDigitsAux fuel n).length ≤ k
  | 0, n, k => by omega
  | fuel + 1, n, k => by
    intro hfuel hk hnk
    by_cases h10 : n < 10
    · simp only [decDigitsAux, if_pos h10, List.length_singleton]
      omega
    · have hk2 : 2 ≤ k := by
        rcases Nat.lt_or_ge k 2 with hlt | hge
        · have hk1 : k = 1 := by omega
          rw [hk1, pow_one] at hnk
          omega
        · exact hge
      have hdiv : n / 10 < 10 ^ (k - 1) := by
        rw [Nat.div_lt_iff_lt_mul (by norm_num : (0 : Nat) < 10)]
        calc n < 10 ^ k := hnk
        _ = 10 ^ (k - 1) * 10 := by
            rw [← pow_succ]
            congr 1
            omega
      have hrec := decDigitsAux_length fuel (n / 10) (k - 1)
        (by
          have := Nat.div_lt_self (by omega : 0 < n) (by norm_num : 1 < 10)
          omega)
        (by omega) hdiv
      simp only [decDigitsAux, if_neg h10, List.length_append, List.length_singleton]
      omega

theorem natToDecimalString_length_le (n k : Nat) (hk : 1 ≤ k) (h : n < 10 ^ k) :
    (natToDecimalString n).length ≤ k := by
  simpa [natToDecimalString] using decDigitsAux_length (n + 1) n k (by omega) hk h

theorem decimalStringWithPadding_length (n m : Nat) (hd : n % 2 ^ 32 < 10 ^ m)
    (hm : 1 ≤ m) : (decimalStringWithPadding n m).length = m := by
  have hle := natToDecimalString_length_le (n % 2 ^ 32) m hm hd
  simp only [decimalStringWithPadding, String.length_append, String.length_mk,
    List.length_replicate]
  omega

theorem decimalStringWithPadding_digits (n m : Nat) :
    ∀ c ∈ (decimalStringWithPadding n m).data, c.isDigit = true := by
  intro c hc
  simp only [decimalStringWithPadding, String.data_append] at hc
  rcases List.mem_append.mp hc with hc | hc
  · have : c = '0' := List.eq_of_mem_replicate hc
    subst this
    decide
  · exact decDigitsAux_digits _ _ c hc

/-- Every `uint32_t` value fits in 11 decimal digits, so the short-code group
always has exactly `kManualSetupShortCodeCharLength` characters. -/
theorem decimalStringWithPadding_short_length (n : Nat) :
    (decimalStringWithPadding n kManualSetupShortCodeCharLength).length =
      kManualSetupShortCodeCharLength := by
  apply decimalStringWithPadding_length
  · calc n % 2 ^ 32 < 2 ^ 32 := Nat.mod_lt _ (by norm_num)
    _ < 10 ^ kManualSetupShortCodeCharLength := by norm_num [kManualSetupShortCodeCharLength]
  · norm_num [kManualSetupShortCodeCharLength]

/-! ### Bit-level characterization of the short representation -/

/-- The `uint32_t` computation in `shortPayloadRepresentation` equals the spec's
untruncated bit-packed value reduced modulo `2 ^ 32`. -/
theorem short_eq_spec_mod (p : SetupPayload) :
    shortPayloadRepresentation p = specShortPackedValue p % 2 ^ 32 := by
  apply Nat.eq_of_testBit_eq
  intro i
  simp only [shortPayloadRepresentation, specShortPackedValue, Nat.testBit_or,
    Nat.testBit_mod_two_pow]
  by_cases hi : i < 32
  · simp [hi]
  · have hc : (if p.requiresCustomFlow then 1 else 0).testBit i = false := by
      apply Nat.testBit_eq_false_of_lt
      calc (if p.requiresCustomFlow then 1 else 0) < 2 := by split <;> norm_num
      _ = 2 ^ 1 := by norm_num
      _ ≤ 2 ^ i := Nat.pow_le_pow_right (by norm_num) (by omega)
    simp [hi, hc]

/-- Only the low 4 bits of the discriminator survive the `uint32_t` truncation:
bits 28..39 of the packed value are cut off at bit 31. -/
theorem short_disc_mod (p : SetupPayload) :
    shortPayloadRepresentation
        (SetupPayload.mk p.requiresCustomFlow p.setUpPINCode (p.discriminator % 2 ^ 4)
          p.vendorID p.productID) =
      shortPayloadRepresentation p := by
  apply Nat.eq_of_testBit_eq
  intro i
  simp only [shortPayloadRepresentation, kSetupPINCodeFieldLengthInBits, Nat.testBit_or,
    Nat.testBit_mod_two_pow, Nat.testBit_shiftLeft]
  by_cases hi : i < 32
  · by_cases h28 : 1 + 27 ≤ i
    · have h4 : i - (1 + 27) < 4 := by omega
      simp [hi, h28, h4, ge_iff_le]
    · simp [hi, h28, ge_iff_le]
  · simp [hi]

/-! ## Claims about the manual code encoder -/

/-- C1: for `W_pin = 27`, `W_disc = 12`, `L_short = 11`, the payload with
`requiresCustomFlow = false`, `setUpPINCode = 20202021`, `discriminator = 3840`
(and any vendor/product IDs) encodes successfully to the 11-digit left-zero-padded
decimal rendering of the unsigned 32-bit integer `0 | (20202021 << 1) | (3840 << 28)`,
which is the stable string `"00040404042"`. -/
theorem claim1_round_trip_example (v pr : Nat) (out : String) :
    payloadDecimalStringRepresentation (SetupPayload.mk false 20202021 3840 v pr) out =
      (.no_error,
        decimalStringWithPadding ((0 ||| (20202021 <<< 1)) ||| (3840 <<< 28))
          kManualSetupShortCodeCharLength) ∧
    payloadDecimalStringRepresentation (SetupPayload.mk false 20202021 3840 v pr) out =
      (.no_error, "00040404042") := by
  have hval : (SetupPayload.mk false 20202021 3840 v pr).isValidManualCode = true :=
    (show (SetupPayload.mk false 20202021 3840 v pr).isValidManualCode =
        (SetupPayload.mk false 20202021 3840 0 0).isValidManualCode from rfl).trans
      (by decide)
  have hshort : shortPayloadRepresentation (SetupPayload.mk false 20202021 3840 v pr) =
      40404042 :=
    (show shortPayloadRepresentation (SetupPayload.mk false 20202021 3840 v pr) =
        shortPayloadRepresentation (SetupPayload.mk false 20202021 3840 0 0) from rfl).trans
      (by decide)
  have h1 : payloadDecimalStringRepresentation (SetupPayload.mk false 20202021 3840 v pr) out =
      (.no_error, decimalStringWithPadding 40404042 kManualSetupShortCodeCharLength) := by
    simp [payloadDecimalStringRepresentation, hval, hshort]
  have h2 : decimalStringWithPadding ((0 ||| (20202021 <<< 1)) ||| (3840 <<< 28))
      kManualSetupShortCodeCharLength =
      decimalStringWithPadding 40404042 kManualSetupShortCodeCharLength := by decide
  have h3 : decimalStringWithPadding 40404042 kManualSetupShortCodeCharLength =
      "00040404042" := by decide
  rw [h1, h2, h3]
  exact ⟨rfl, rfl⟩

/-- C2 counterexample: the payload with `setUpPINCode = 0`, `discriminator = 16`
is valid for manual-code encoding, yet the computed short representation (`0`)
does not carry the discriminator in bits 28..39 of the packed value
(`16 << 28 = 2^32` is truncated away by the `uint32_t` arithmetic). -/
theorem claim2_counterexample :
    (SetupPayload.mk false 0 16 0 0).setUpPINCode < 2 ^ kSetupPINCodeFieldLengthInBits ∧
    (SetupPayload.mk false 0 16 0 0).discriminator <
      2 ^ kPayloadDiscriminatorFieldLengthInBits ∧
    shortPayloadRepresentation (SetupPayload.mk false 0 16 0 0) ≠
      specShortPackedValue (SetupPayload.mk false 0 16 0 0) :=
  ⟨by decide, by decide, by decide⟩

/-- C2 (amended): for every payload valid for manual-code encoding, the short
representation equals the spec's bit-packed value (bit 0 custom flow, bits
1..27 PIN, bits 28..39 discriminator) reduced modulo `2 ^ 32`. -/
theorem claim2_short_packing (p : SetupPayload)
    (_hpin : p.setUpPINCode < 2 ^ kSetupPINCodeFieldLengthInBits)
    (_hdisc : p.discriminator < 2 ^ kPayloadDiscriminatorFieldLengthInBits) :
    shortPayloadRepresentation p = specShortPackedValue p % 2 ^ 32 :=
  short_eq_spec_mod p

theorem claim2_witness :
    (SetupPayload.mk true 1 2 0 0).setUpPINCode < 2 ^ kSetupPINCodeFieldLengthInBits ∧
    (SetupPayload.mk true 1 2 0 0).discriminator <
      2 ^ kPayloadDiscriminatorFieldLengthInBits ∧
    shortPayloadRepresentation (SetupPayload.mk true 1 2 0 0) =
      specShortPackedValue (SetupPayload.mk true 1 2 0 0) % 2 ^ 32 :=
  ⟨by decide, by decide, claim2_short_packing (SetupPayload.mk true 1 2 0 0)
    (by decide) (by decide)⟩

/-- C3: `shortPayloadRepresentation` computes in 32-bit unsigned arithmetic —
for every payload the result is the packed value reduced modulo `2 ^ 32`, and
consequently only the low 4 bits of the discriminator can influence it. -/
theorem claim3_uint32_arithmetic (p : SetupPayload) :
    shortPayloadRepresentation p =
      ((if p.requiresCustomFlow then 1 else 0) ||| (p.setUpPINCode <<< 1) |||
        (p.discriminator <<< (1 + kSetupPINCodeFieldLengthInBits))) % 2 ^ 32 ∧
    shortPayloadRepresentation
        (SetupPayload.mk p.requiresCustomFlow p.setUpPINCode (p.discriminator % 2 ^ 4)
          p.vendorID p.productID) =
      shortPayloadRepresentation p :=
  ⟨short_eq_spec_mod p, short_disc_mod p⟩

/-- C4: when `isValidManualCode()` is false, `payloadDecimalStringRepresentation`
returns the invalid-argument error and leaves the output string untouched. -/
theorem claim4_invalid_no_output (p : SetupPayload) (out : String)
    (h : p.isValidManualCode = false) :
    payloadDecimalStringRepresentation p out = (.invalid_argument, out) := by
  simp [payloadDecimalStringRepresentation, h]

theorem claim4_witness :
    (SetupPayload.mk false (2 ^ 27) 0 0 0).isValidManualCode = false ∧
    payloadDecimalStringRepresentation (SetupPayload.mk false (2 ^ 27) 0 0 0) "untouched" =
      (.invalid_argument, "untouched") :=
  ⟨by decide, claim4_invalid_no_output (SetupPayload.mk false (2 ^ 27) 0 0 0) "untouched"
    (by decide)⟩

/-- C5: for a valid payload, the output is the short-code digits followed (with
no separator) by the zero-padded vendor and product groups exactly when
`requiresCustomFlow` is true; when it is false the output is the short-code
digits alone, and vendor/product IDs cannot affect it. -/
theorem claim5_group_structure (p : SetupPayload) (out : String)
    (h : p.isValidManualCode = true) :
    (p.requiresCustomFlow = true →
      payloadDecimalStringRepresentation p out =
        (.no_error,
          decimalStringWithPadding (shortPayloadRepresentation p)
              kManualSetupShortCodeCharLength ++
            decimalStringWithPadding p.vendorID kManualSetupVendorIdCharLength ++
            decimalStringWithPadding p.productID kManualSetupProductIdCharLength)) ∧
    (p.requiresCustomFlow = false →
      payloadDecimalStringRepresentation p out =
        (.no_error,
          decimalStringWithPadding (shortPayloadRepresentation p)
            kManualSetupShortCodeCharLength) ∧
      ∀ v q,
        payloadDecimalStringRepresentation
            (SetupPayload.mk false p.setUpPINCode p.discriminator v q) out =
          payloadDecimalStringRepresentation p out) := by
  constructor
  · intro hcf
    simp [payloadDecimalStringRepresentation, h, hcf]
  · intro hcf
    have h' : (SetupPayload.mk false p.setUpPINCode p.discriminator 0 0).isValidManualCode =
        true := by
      simpa [SetupPayload.isValidManualCode] using h
    constructor
    · simp [payloadDecimalStringRepresentation, h, hcf]
    · intro v q
      have hv' : (SetupPayload.mk false p.setUpPINCode p.discriminator v q).isValidManualCode =
          true := by
        simpa [SetupPayload.isValidManualCode] using h
      simp [payloadDecimalStringRepresentation, h, hv', hcf, shortPayloadRepresentation]

theorem claim5_witness :
    (SetupPayload.mk true 1234 56 9050 20043).isValidManualCode = true ∧
    ((SetupPayload.mk true 1234 56 9050 20043).requiresCustomFlow = true →
      payloadDecimalStringRepresentation (SetupPayload.mk true 1234 56 9050 20043) "" =
        (.no_error,
          decimalStringWithPadding
              (shortPayloadRepresentation (SetupPayload.mk true 1234 56 9050 20043))
              kManualSetupShortCodeCharLength ++
            decimalStringWithPadding 9050 kManualSetupVendorIdCharLength ++
            decimalStringWithPadding 20043 kManualSetupProductIdCharLength)) :=
  ⟨by decide, ((claim5_group_structure (SetupPayload.mk true 1234 56 9050 20043) ""
    (by decide)).1)⟩

/-- C6: for a valid payload (with the 16-bit vendor/product fields of the C++
record), the output consists of decimal digits only and has fixed total length
`L_short`, or `L_short + L_vendor + L_product` when custom flow is required. -/
theorem claim6_fixed_length_digits (p : SetupPayload) (out : String)
    (h : p.isValidManualCode = true) (hv : p.vendorID < 2 ^ 16)
    (hq : p.productID < 2 ^ 16) :
    (∀ c ∈ (payloadDecimalStringRepresentation p out).2.data, c.isDigit = true) ∧
    (payloadDecimalStringRepresentation p out).2.length =
      (if p.requiresCustomFlow then
        kManualSetupShortCodeCharLength + kManualSetupVendorIdCharLength +
          kManualSetupProductIdCharLength
      else kManualSetupShortCodeCharLength) := by
  have hvlen : (decimalStringWithPadding p.vendorID kManualSetupVendorIdCharLength).length =
      kManualSetupVendorIdCharLength := by
    apply decimalStringWithPadding_length
    · rw [Nat.mod_eq_of_lt (lt_trans hv (by norm_num))]
      calc p.vendorID < 2 ^ 16 := hv
      _ < 10 ^ kManualSetupVendorIdCharLength := by norm_num [kManualSetupVendorIdCharLength]
    · norm_num [kManualSetupVendorIdCharLength]
  have hqlen : (decimalStringWithPadding p.productID kManualSetupProductIdCharLength).length =
      kManualSetupProductIdCharLength := by
    apply decimalStringWithPadding_length
    · rw [Nat.mod_eq_of_lt (lt_trans hq (by norm_num))]
      calc p.productID < 2 ^ 16 := hq
      _ < 10 ^ kManualSetupProductIdCharLength := by norm_num [kManualSetupProductIdCharLength]
    · norm_num [kManualSetupProductIdCharLength]
  by_cases hcf : p.requiresCustomFlow
  · have hout : (payloadDecimalStringRepresentation p out).2 =
        decimalStringWithPadding (shortPayloadRepresentation p)
            kManualSetupShortCodeCharLength ++
          decimalStringWithPadding p.vendorID kManualSetupVendorIdCharLength ++
          decimalStringWithPadding p.productID kManualSetupProductIdCharLength := by
      simp [payloadDecimalStringRepresentation, h, hcf]
    rw [hout]
    constructor
    · intro c hc
      simp only [String.data_append] at hc
      rcases List.mem_append.mp hc with hc | hc
      · rcases List.mem_append.mp hc with hc | hc
        · exact decimalStringWithPadding_digits _ _ c hc
        · exact decimalStringWithPadding_digits _ _ c hc
      · exact decimalStringWithPadding_digits _ _ c hc
    · simp [String.length_append, decimalStringWithPadding_short_length, hvlen, hqlen, hcf]
  · have hout : (payloadDecimalStringRepresentation p out).2 =
        decimalStringWithPadding (shortPayloadRepresentation p)
          kManualSetupShortCodeCharLength := by
      simp [payloadDecimalStringRepresentation, h, hcf]
    rw [hout]
    constructor
    · intro c hc
      exact decimalStringWithPadding_digits _ _ c hc
    · simp [decimalStringWithPadding_short_length, hcf]

theorem claim6_witness :
    (SetupPayload.mk true 1234 56 9050 20043).isValidManualCode = true ∧
    (9050 : Nat) < 2 ^ 16 ∧ (20043 : Nat) < 2 ^ 16 ∧
    ((∀ c ∈ (payloadDecimalStringRepresentation
        (SetupPayload.mk true 1234 56 9050 20043) "what").2.data, c.isDigit = true) ∧
      (payloadDecimalStringRepresentation
          (SetupPayload.mk true 1234 56 9050 20043) "what").2.length =
        (if (SetupPayload.mk true 1234 56 9050 20043).requiresCustomFlow then
          kManualSetupShortCodeCharLength + kManualSetupVendorIdCharLength +
            kManualSetupProductIdCharLength
        else kManualSetupShortCodeCharLength)) :=
  ⟨by decide, by decide, by decide,
    claim6_fixed_length_digits (SetupPayload.mk true 1234 56 9050 20043) "what"
      (by decide) (by decide) (by decide)⟩

/-! ### Derived characterizations of `Count`, `Find` and instrumented handlers -/

theorem runHandler_ok {σ : Type} (h : Handler σ)
    (hok : ∀ (st : σ) (n : TLVNode) (d : Nat), (h st n d).1 = .no_error) :
    ∀ (l : List (TLVNode × Nat)) (st : σ) (me : Option CHIP_ERROR),
      runHandler h st l me =
        (me.getD .no_error, l.foldl (fun st nd => (h st nd.1 nd.2).2) st)
  | [], st, none => by simp [runHandler]
  | [], st, some e => by simp [runHandler]
  | nd :: rest, st, me => by
    simp only [runHandler, if_pos (hok st nd.1 nd.2), List.foldl_cons]
    exact runHandler_ok h hok rest _ me

theorem foldl_countHandler :
    ∀ (l : List (TLVNode × Nat)) (k : Nat),
      l.foldl (fun st nd => (countHandler st nd.1 nd.2).2) k = k + l.length
  | [], k => by simp
  | nd :: rest, k => by
    rw [List.foldl_cons, show (countHandler k nd.1 nd.2).2 = k + 1 from rfl,
      foldl_countHandler rest (k + 1), List.length_cons]
    omega

theorem foldl_instr_noop :
    ∀ (l : List (TLVNode × Nat)) (u : Unit) (k : Nat),
      l.foldl (fun p nd => (instr noopHandler p nd.1 nd.2).2) (u, k) = ((), k + l.length)
  | [], u, k => by simp
  | nd :: rest, u, k => by
    rw [List.foldl_cons,
      show (instr noopHandler (u, k) nd.1 nd.2).2 = ((), k + 1) from rfl,
      foldl_instr_noop rest () (k + 1), List.length_cons]
    congr 1
    omega

mutual
theorem visitsS_err_none (r : Bool) (d : Nat) :
    ∀ s : TLVStream, (visitsS r d s).2 = none ↔ firstBadS s = none
  | .nil => by simp [visitsS, firstBadS]
  | .bad e => by simp [visitsS, firstBadS]
  | .cons n rest => by
    have hn := visitsN_err_none r d n
    rcases hvn : (visitsN r d n).2 with _ | e
    · rw [hvn] at hn
      have hfn : firstBadN n = none := hn.mp rfl
      simp only [visitsS, hvn, firstBadS, hfn]
      exact visitsS_err_none r d rest
    · rw [hvn] at hn
      rcases hfb : firstBadN n with _ | e2
      · exact absurd (hn.mpr hfb) (by simp)
      · simp [visitsS, hvn, firstBadS, hfb]

theorem visitsN_err_none (r : Bool) (d : Nat) :
    ∀ n : TLVNode, (visitsN r d n).2 = none ↔ firstBadN n = none
  | .leaf t => by simp [visitsN, firstBadN]
  | .container t cs => by
    by_cases hr : r
    · simpa [visitsN, firstBadN, hr] using visitsS_err_none r (d + 1) cs
    · simp [visitsN, firstBadN, hr]
end

theorem visitsS_err_none_of_wf (r : Bool) (d : Nat) (s : TLVStream)
    (hwf : containsBad s = false) : (visitsS r d s).2 = none := by
  apply (visitsS_err_none r d s).mpr
  rcases hfs : firstBadS s with _ | e
  · rfl
  · rw [containsBad, hfs] at hwf
    simp at hwf

theorem visitsS_err_of_bad (r : Bool) (d : Nat) (s : TLVStream)
    (hb : containsBad s = true) : ∃ de, (visitsS r d s).2 = some de := by
  rcases hv : (visitsS r d s).2 with _ | de
  · exfalso
    rw [containsBad, (visitsS_err_none r d s).mp hv] at hb
    simp at hb
  · exact ⟨de, rfl⟩

theorem runHandler_findHandler_none (t : Nat) :
    ∀ (l : List (TLVNode × Nat)) (acc : Option TLVNode) (me : Option CHIP_ERROR),
      l.find? (fun nd => nd.1.tag == t) = none →
        runHandler (findHandler t) acc l me = (me.getD .no_error, acc)
  | [], acc, none => by intro _; simp [runHandler]
  | [], acc, some e => by intro _; simp [runHandler]
  | nd :: rest, acc, me => by
    intro hf
    by_cases htag : nd.1.tag = t
    · rw [List.find?_cons_of_pos _ (by simpa using htag)] at hf
      cases hf
    · rw [List.find?_cons_of_neg _ (by simpa using htag)] at hf
      simp only [runHandler, findHandler, if_neg htag]
      simpa using runHandler_findHandler_none t rest acc me hf

theorem runHandler_findHandler_some (t : Nat) :
    ∀ (l : List (TLVNode × Nat)) (acc : Option TLVNode) (me : Option CHIP_ERROR)
      (nd0 : TLVNode × Nat),
      l.find? (fun nd => nd.1.tag == t) = some nd0 →
        runHandler (findHandler t) acc l me = (kFindSentinel, some nd0.1)
  | [], acc, me, nd0 => by intro hf; simp [List.find?] at hf
  | nd :: rest, acc, me, nd0 => by
    intro hf
    by_cases htag : nd.1.tag = t
    · rw [List.find?_cons_of_pos _ (by simpa using htag)] at hf
      cases hf
      simp only [runHandler, findHandler, if_pos htag]
      have hs : kFindSentinel ≠ CHIP_ERROR.no_error := by simp [kFindSentinel]
      simp [hs]
    · rw [List.find?_cons_of_neg _ (by simpa using htag)] at hf
      simp only [runHandler, findHandler, if_neg htag]
      simpa using runHandler_findHandler_some t rest acc me nd0 hf

theorem runHandler_instr_firstFailure {σ : Type} (h : Handler σ) :
    ∀ (l : List (TLVNode × Nat)) (st : σ) (k : Nat) (me : Option CHIP_ERROR)
      (n : Nat) (c : CHIP_ERROR) (stf : σ),
      firstFailure h st k l = some (n, c, stf) →
        runHandler (instr h) (st, k) l me = (c, (stf, n))
  | [], st, k, me, n, c, stf => by
    intro hf
    simp [firstFailure] at hf
  | nd :: rest, st, k, me, n, c, stf => by
    intro hf
    by_cases hp : (h st nd.1 nd.2).1 = .no_error
    · simp only [firstFailure, if_pos hp] at hf
      simp only [runHandler, instr, if_pos hp]
      exact runHandler_instr_firstFailure h rest _ (k + 1) me n c stf hf
    · simp only [firstFailure, if_neg hp, Option.some.injEq, Prod.mk.injEq] at hf
      obtain ⟨hn, hc, hstf⟩ := hf
      subst hn
      subst hc
      subst hstf
      simp [runHandler, instr, hp]

/-! ## Claims about the TLV traversal utilities -/

/-- C7: for every element stream and every visitor, if the visitor first
returns a non-continue status on its `n`-th invocation (with status `c` and
context `stf`), then `Iterate` invokes the visitor exactly `n` times (witnessed
by the instrumentation counter) and returns `c` verbatim. -/
theorem claim7_visitor_abort {σ : Type} (h : Handler σ) (st : σ)
    (s : TLVStream) (r : Bool) (n : Nat) (c : CHIP_ERROR) (stf : σ)
    (hf : firstFailure h st 0 (visitsS r 0 s).1 = some (n, c, stf)) :
    Iterate s (instr h) (st, 0) r = (c, (stf, n)) := by
  simp only [Iterate]
  rw [masterS]
  exact runHandler_instr_firstFailure h (visitsS r 0 s).1 st 0 _ n c stf hf

theorem claim7_witness :
    firstFailure (fun (k : Nat) _ _ => (if k = 1 then CHIP_ERROR.code 7 else .no_error, k + 1))
        0 0
        (visitsS true 0 (.cons (.leaf 1) (.cons (.leaf 2) (.cons (.leaf 3) .nil)))).1 =
      some (2, .code 7, 2) ∧
    Iterate (.cons (.leaf 1) (.cons (.leaf 2) (.cons (.leaf 3) .nil)))
        (instr (fun (k : Nat) _ _ => (if k = 1 then CHIP_ERROR.code 7 else .no_error, k + 1)))
        (0, 0) true =
      (.code 7, (2, 2)) :=
  ⟨rfl,
    claim7_visitor_abort (fun (k : Nat) _ _ => (if k = 1 then CHIP_ERROR.code 7 else .no_error, k + 1))
      0 (.cons (.leaf 1) (.cons (.leaf 2) (.cons (.leaf 3) .nil))) true 2 (.code 7) 2 rfl⟩

/-- C8: on a stream containing a malformed encoding, `Iterate` (with a
never-aborting visitor), `Count` and `Find` all fail with a decode-error
status, regardless of `recurse`; `Find` never reports this as not-found, and a
decode error is a distinct error kind from visitor-abort codes. -/
theorem claim8_decode_error (s : TLVStream) (r : Bool) (t : Nat)
    (hbad : containsBad s = true) :
    (∃ de, (Count s r).1 = .decode de) ∧
    (∃ de, (Iterate s noopHandler () r).1 = .decode de) ∧
    ((Find s t r).2 = none → ∃ de, (Find s t r).1 = .decode de) ∧
    (∀ de n, CHIP_ERROR.decode de ≠ .code n ∧ CHIP_ERROR.decode de ≠ .no_error ∧
      CHIP_ERROR.decode de ≠ .invalid_argument) := by
  obtain ⟨de, hde⟩ := visitsS_err_of_bad r 0 s hbad
  have hcount : Count s r = (.decode de, 0 + (visitsS r 0 s).1.length) := by
    simp only [Count, Iterate]
    rw [masterS, hde, Option.map_some',
      runHandler_ok countHandler (fun st n d => rfl), foldl_countHandler]
    simp
  have hnoop : (Iterate s noopHandler () r).1 = .decode de := by
    simp only [Iterate]
    rw [masterS, hde, Option.map_some', runHandler_ok noopHandler (fun st n d => rfl)]
    simp
  refine ⟨⟨de, by rw [hcount]⟩, ⟨de, hnoop⟩, ?_, ?_⟩
  · intro hnone
    rcases hfq : (visitsS r 0 s).1.find? (fun nd => nd.1.tag == t) with _ | nd0
    · have hrun := runHandler_findHandler_none t (visitsS r 0 s).1 none
        ((visitsS r 0 s).2.map CHIP_ERROR.decode) hfq
      have hp : Iterate s (findHandler t) none r = (.decode de, none) := by
        simp only [Iterate]
        rw [masterS, hrun, hde]
        simp
      have hns : CHIP_ERROR.decode de ≠ kFindSentinel := by simp [kFindSentinel]
      refine ⟨de, ?_⟩
      simp [Find, hp, hns]
    · exfalso
      have hrun := runHandler_findHandler_some t (visitsS r 0 s).1 none
        ((visitsS r 0 s).2.map CHIP_ERROR.decode) nd0 hfq
      have hp : Iterate s (findHandler t) none r = (kFindSentinel, some nd0.1) := by
        simp only [Iterate]
        rw [masterS, hrun]
      simp [Find, hp] at hnone
  · intro de2 n
    refine ⟨?_, ?_, ?_⟩ <;> intro hc <;> cases hc

theorem claim8_witness :
    containsBad (.cons (.leaf 1) (.cons (.container 2 (.cons (.leaf 3) (.bad .underrun)))
        .nil)) = true ∧
    (Count (.cons (.leaf 1) (.cons (.container 2 (.cons (.leaf 3) (.bad .underrun)))
        .nil)) false).1 = .decode .underrun ∧
    (∃ de, (Count (.cons (.leaf 1) (.cons (.container 2 (.cons (.leaf 3) (.bad .underrun)))
        .nil)) false).1 = .decode de) :=
  ⟨rfl, rfl,
    (claim8_decode_error
      (.cons (.leaf 1) (.cons (.container 2 (.cons (.leaf 3) (.bad .underrun))) .nil))
      false 0 rfl).1⟩

/-- C9: on a well-formed stream, `Find` always succeeds, returning the first
element with the sought tag in document order among the elements reachable
under the given recurse setting, and `none` (not-found, still a success) when
no reachable element has that tag. -/
theorem claim9_find_first (s : TLVStream) (t : Nat) (r : Bool)
    (hwf : containsBad s = false) :
    Find s t r =
      (.no_error,
        ((visitsS r 0 s).1.find? (fun nd => nd.1.tag == t)).map (fun nd => nd.1)) := by
  have hnone := visitsS_err_none_of_wf r 0 s hwf
  rcases hfq : (visitsS r 0 s).1.find? (fun nd => nd.1.tag == t) with _ | nd0
  · have hrun := runHandler_findHandler_none t (visitsS r 0 s).1 none
      ((visitsS r 0 s).2.map CHIP_ERROR.decode) hfq
    have hp : Iterate s (findHandler t) none r = (.no_error, none) := by
      simp only [Iterate]
      rw [masterS, hrun, hnone]
      simp
    have hns : CHIP_ERROR.no_error ≠ kFindSentinel := by simp [kFindSentinel]
    simp [Find, hp, hns, hfq]
  · have hrun := runHandler_findHandler_some t (visitsS r 0 s).1 none
      ((visitsS r 0 s).2.map CHIP_ERROR.decode) nd0 hfq
    have hp : Iterate s (findHandler t) none r = (kFindSentinel, some nd0.1) := by
      simp only [Iterate]
      rw [masterS, hrun]
    simp [Find, hp, hfq]

theorem claim9_witness :
    containsBad (.cons (.leaf 5) (.cons (.container 7 (.cons (.leaf 9) .nil)) .nil)) =
      false ∧
    Find (.cons (.leaf 5) (.cons (.container 7 (.cons (.leaf 9) .nil)) .nil)) 9 true =
      (.no_error, some (.leaf 9)) ∧
    Find (.cons (.leaf 5) (.cons (.container 7 (.cons (.leaf 9) .nil)) .nil)) 9 false =
      (.no_error, none) :=
  ⟨rfl,
    (claim9_find_first (.cons (.leaf 5) (.cons (.container 7 (.cons (.leaf 9) .nil)) .nil))
      9 true rfl).trans rfl,
    (claim9_find_first (.cons (.leaf 5) (.cons (.container 7 (.cons (.leaf 9) .nil)) .nil))
      9 false rfl).trans rfl⟩

/-- C10: `Count` returns exactly the number of visitor invocations that
`Iterate` performs with an (instrumented) no-op visitor on the same stream and
recurse setting, returns the same status, and that status is either success or
a decode error — `Count` fails only when `Iterate` fails with a decode error. -/
theorem claim10_count_refines_iterate (s : TLVStream) (r : Bool) :
    (Count s r).2 = (Iterate s (instr noopHandler) ((), 0) r).2.2 ∧
    (Count s r).1 = (Iterate s (instr noopHandler) ((), 0) r).1 ∧
    ((Count s r).1 = .no_error ∨ ∃ de, (Count s r).1 = .decode de) := by
  have hcount : Count s r =
      (((visitsS r 0 s).2.map CHIP_ERROR.decode).getD .no_error,
        0 + (visitsS r 0 s).1.length) := by
    simp only [Count, Iterate]
    rw [masterS, runHandler_ok countHandler (fun st n d => rfl), foldl_countHandler]
  have hnoop : Iterate s (instr noopHandler) ((), 0) r =
      (((visitsS r 0 s).2.map CHIP_ERROR.decode).getD .no_error,
        ((), 0 + (visitsS r 0 s).1.length)) := by
    simp only [Iterate]
    rw [masterS, runHandler_ok (instr noopHandler) (fun st n d => rfl), foldl_instr_noop]
  refine ⟨?_, ?_, ?_⟩
  · rw [hcount, hnoop]
  · rw [hcount, hnoop]
  · rcases hv : (visitsS r 0 s).2 with _ | de
    · left
      rw [hcount, hv]
      simp
    · right
      refine ⟨de, ?_⟩
      rw [hcount, hv]
      simp

end ChipSpec
